import Mathlib

/-!
# raintank-probe: health monitor (`scheduler/health.go`) and healthz endpoint (`main.go`)

Shallow embedding of `Scheduler.CheckHealth` and of the two handlers that
`Healthz.Run` registers.

Modelling conventions.

* One iteration of `for range ticker.C` is a *tick*.  The goroutines of a tick
  each send exactly one value on `resultsCh`; after `wg.Wait()` and
  `close(resultsCh)` the loop `for r := range resultsCh` reads them in the order
  in which they were sent.  A tick is therefore determined by the list of values
  in channel order, and every order (permutation) of the per-host values is a
  possible one.
* `len(chks)` is a natural number `n`; `score` and the channel values are never
  negative, so they are natural numbers as well.  `score` never exceeds
  `2 * n` (lemma `score_le_two_mul`), far below the range of Go's `int` and
  below `2 ^ 53`, so the conversions `float64(score)` and
  `float64(len(chks)/2.0)` are exact and the comparison is the comparison of the
  two integers.  In `len(chks)/2.0` the constant `2.0` is converted to `int`, so
  the division is Go's integer division.
* Effects on the outside world (the gauge, the lock, the `Healthy` field, the
  calls `instance.Stop()` and `instance.Run()`) are recorded, in program order,
  in a list of `Effect`s.  Logging is not modelled.
-/

namespace RaintankProbe

/-! ## A tick: per-host results, score, classification -/

/-- What `chk.Run()` gave for one health host (health.go lines 45-57). -/
inductive RunOutcome where
  /-- `err != nil`. -/
  | hardError
  /-- `err == nil` and `results.ErrorMsg() != ""`. -/
  | softFailure
  /-- `err == nil` and `results.ErrorMsg() == ""`. -/
  | success
  deriving DecidableEq, Repr

/-- The value the goroutine of a host sends on `resultsCh`:
`ch <- 3`, `ch <- 1`, `ch <- 0`. -/
def send : RunOutcome → Nat
  | .hardError => 3
  | .softFailure => 1
  | .success => 0

/-- Body of the loop `for r := range resultsCh` (lines 64-69). -/
def scoreStep (n : Nat) (score r : Nat) : Nat :=
  if r = 3 then n else score + r

/-- The loop `for r := range resultsCh` started with the given value of `score`. -/
def scoreLoop (n : Nat) (score : Nat) (results : List Nat) : Nat :=
  results.foldl (scoreStep n) score

/-- Lines 62-70: `score := 0` followed by the loop; `n` is `len(chks)`. -/
def score (n : Nat) (results : List Nat) : Nat :=
  scoreLoop n 0 results

/-- Lines 71-75: `newState := 0; if float64(score) > float64(len(chks)/2.0)
then newState = 1`. -/
def newState (n : Nat) (score : Nat) : Nat :=
  if score > n / 2 then 1 else 0

/-- New state of a tick over `n` hosts whose results are read in the given order. -/
def tickState (n : Nat) (results : List Nat) : Nat :=
  newState n (score n results)

/-- Per-host contribution to the score as the specification words it: a hard
execution error counts for the entire host count, a soft failure for 1 and a
success for 0. -/
def contribution (n : Nat) : RunOutcome → Nat
  | .hardError => n
  | .softFailure => 1
  | .success => 0

/-! ## The scheduler as seen by `CheckHealth`, and the effects of a tick -/

/-- The part of a `CheckInstance` that `CheckHealth` reads (for its debug log):
`instance.Check.Type` and `instance.Check.Slug`. -/
structure CheckInstance where
  checkType : String
  slug : String
  deriving DecidableEq, Repr

/-- The fields of `Scheduler` that `CheckHealth` uses.  `Checks` is the Go map
from check id to instance, as an association list (one entry per key); Go
ranges over a map in an unspecified order, the list order stands for the order
of one such traversal. -/
structure Scheduler where
  Healthy : Bool
  Checks : List (Int × CheckInstance)
  HealthHosts : List String
  deriving DecidableEq, Repr

/-- Keys of the `Checks` map. -/
def Scheduler.keys (s : Scheduler) : List Int :=
  s.Checks.map Prod.fst

/-- Externally visible actions of `CheckHealth`, in program order. -/
inductive Effect where
  /-- `schedulerHealth.Set(v)`. -/
  | gaugeSet (v : Nat)
  /-- `s.Lock()`. -/
  | lock
  /-- `s.Unlock()`. -/
  | unlock
  /-- `s.Healthy = b`. -/
  | setHealthy (b : Bool)
  /-- `instance.Stop()` on the instance stored under the key. -/
  | stop (id : Int)
  /-- `instance.Run()` on the instance stored under the key. -/
  | run (id : Int)
  deriving DecidableEq, Repr

/-- State carried by `CheckHealth` from tick to tick: the scheduler it works
on, the value of the gauge `schedulerHealth`, and the local `lastState`. -/
structure HealthState where
  s : Scheduler
  schedulerHealth : Nat
  lastState : Nat
  deriving DecidableEq, Repr

/-- The loop `for _, instance := range s.Checks { instance.Stop() }`. -/
def stopAll (checks : List (Int × CheckInstance)) : List Effect :=
  checks.map (fun c => Effect.stop c.1)

/-- The loop `for _, instance := range s.Checks { instance.Run() }`. -/
def runAll (checks : List (Int × CheckInstance)) : List Effect :=
  checks.map (fun c => Effect.run c.1)

/-- Lines 77-101: what a tick does once `newState` is known. -/
def transition (st : HealthState) (ns : Nat) : HealthState × List Effect :=
  if ns ≠ st.lastState then
    if ns = 1 then
      ({ s := { st.s with Healthy := false }, schedulerHealth := 0, lastState := ns },
        [Effect.gaugeSet 0, Effect.lock, Effect.setHealthy false]
          ++ stopAll st.s.Checks ++ [Effect.unlock])
    else
      ({ s := { st.s with Healthy := true }, schedulerHealth := 1, lastState := ns },
        [Effect.gaugeSet 1, Effect.lock, Effect.setHealthy true]
          ++ runAll st.s.Checks ++ [Effect.unlock])
  else
    (st, [])

/-- One iteration of `for range ticker.C` (lines 38-101) over `n = len(chks)`
hosts, given the values read from `resultsCh` in channel order. -/
def tick (n : Nat) (st : HealthState) (results : List Nat) : HealthState × List Effect :=
  transition st (tickState n results)

/-- Lines 33-34: `schedulerHealth.Set(0)` and `lastState := 1`. -/
def start (s : Scheduler) : HealthState × List Effect :=
  ({ s := s, schedulerHealth := 0, lastState := 1 }, [Effect.gaugeSet 0])

/-- A tick appended to a run: the state moves on, the effects accumulate. -/
def runStep (n : Nat) (acc : HealthState × List Effect) (results : List Nat) :
    HealthState × List Effect :=
  ((tick n acc.1 results).1, acc.2 ++ (tick n acc.1 results).2)

/-- Consecutive ticks. -/
def runTicks (n : Nat) (acc : HealthState × List Effect) (ticks : List (List Nat)) :
    HealthState × List Effect :=
  ticks.foldl (runStep n) acc

/-- `CheckHealth` up to and including the given ticks (the loop itself never
ends): one health check per entry of `s.HealthHosts`, the initialisation of
lines 33-34, then the ticks.  Building a check cannot fail without ending the
process (`log.Fatalf`), so a run that ticks has `len(chks) = len(s.HealthHosts)`. -/
def CheckHealth (s : Scheduler) (ticks : List (List Nat)) : HealthState × List Effect :=
  runTicks s.HealthHosts.length (start s) ticks

/-! ## The healthz endpoint (`main.go`) -/

/-- What a handler has written: the status code (none before the header is
written) and the body. -/
structure ResponseWriter where
  status : Option Nat
  body : String
  deriving DecidableEq, Repr

/-- A response nothing has been written to. -/
def ResponseWriter.fresh : ResponseWriter :=
  { status := none, body := "" }

/-- `http.StatusOK`. -/
def StatusOK : Nat := 200

/-- `http.StatusServiceUnavailable`. -/
def StatusServiceUnavailable : Nat := 503

/-- `w.WriteHeader(code)`: the first call fixes the status. -/
def WriteHeader (w : ResponseWriter) (code : Nat) : ResponseWriter :=
  match w.status with
  | none => { w with status := some code }
  | some _ => w

/-- `w.Write(data)`: writes the header with `StatusOK` if none was written, then
appends to the body. -/
def Write (w : ResponseWriter) (data : String) : ResponseWriter :=
  let w1 := WriteHeader w StatusOK
  { w1 with body := w1.body ++ data }

/-- Modelled from the spec: `Scheduler.IsHealthy`, whose source is not among the
files at hand; the specification gives it as a read of the current health
flag under the lock. -/
def IsHealthy (s : Scheduler) : Bool :=
  s.Healthy

/-- The handler registered for `/ready` (main.go lines 215-224). -/
def readyHandler (s : Scheduler) (w : ResponseWriter) : ResponseWriter :=
  let healthy := IsHealthy s
  if healthy then
    Write (WriteHeader w StatusOK) "OK"
  else
    Write (WriteHeader w StatusServiceUnavailable) "Not Ready"

/-- The handler registered for `/alive` (main.go lines 226-229). -/
def aliveHandler (w : ResponseWriter) : ResponseWriter :=
  Write (WriteHeader w StatusOK) "OK"

/-- The two patterns `Healthz.Run` registers, applied to a request path; `none`
for a path that is neither of them. -/
def healthzServe (s : Scheduler) (path : String) : Option ResponseWriter :=
  if path = "/ready" then some (readyHandler s ResponseWriter.fresh)
  else if path = "/alive" then some (aliveHandler ResponseWriter.fresh)
  else none

/-! ## A concrete scheduler for the worked examples -/

/-- A scheduler with two health hosts and two owned checks, flag raised. -/
def sampleScheduler : Scheduler :=
  { Healthy := true
    Checks := [(7, { checkType := "ping", slug := "a" }), (9, { checkType := "http", slug := "b" })]
    HealthHosts := ["google.com", "youtube.com"] }

/-! ## Lemmas on the score loop -/

theorem scoreLoop_nil (n acc : Nat) : scoreLoop n acc [] = acc := rfl

theorem scoreLoop_cons (n acc r : Nat) (rs : List Nat) :
    scoreLoop n acc (r :: rs) = scoreLoop n (scoreStep n acc r) rs := rfl

theorem scoreLoop_append (n acc : Nat) (xs ys : List Nat) :
    scoreLoop n acc (xs ++ ys) = scoreLoop n (scoreLoop n acc xs) ys := by
  simp [scoreLoop, List.foldl_append]

/-- Without a `3` among the values the loop adds them all up. -/
theorem scoreLoop_of_no_three (n : Nat) (rs : List Nat) :
    ∀ acc, 3 ∉ rs → scoreLoop n acc rs = acc + rs.sum := by
  induction rs with
  | nil => intro acc _; simp [scoreLoop]
  | cons r rs ih =>
    intro acc h
    have hr : r ≠ 3 := fun e => h (by simp [e])
    have hrs : 3 ∉ rs := fun e => h (by simp [e])
    rw [scoreLoop_cons, ih _ hrs]
    simp [scoreStep, hr, Nat.add_assoc]

/-- The loop is monotone in the starting value. -/
theorem scoreLoop_mono (n : Nat) (rs : List Nat) :
    ∀ a b, a ≤ b → scoreLoop n a rs ≤ scoreLoop n b rs := by
  induction rs with
  | nil => intro a b h; simpa [scoreLoop] using h
  | cons r rs ih =>
    intro a b h
    rw [scoreLoop_cons, scoreLoop_cons]
    apply ih
    unfold scoreStep
    split
    · exact Nat.le_refl _
    · omega

/-- The loop ends at or above the smaller of its starting value and `n`. -/
theorem le_scoreLoop (n : Nat) (rs : List Nat) :
    ∀ acc, min acc n ≤ scoreLoop n acc rs := by
  induction rs with
  | nil => intro acc; simp [scoreLoop]
  | cons r rs ih =>
    intro acc
    rw [scoreLoop_cons]
    refine Nat.le_trans ?_ (ih _)
    unfold scoreStep
    split <;> omega

/-- A `3` among the values pushes the final score to the host count or above. -/
theorem le_scoreLoop_of_three (n : Nat) (rs : List Nat) :
    ∀ acc, 3 ∈ rs → n ≤ scoreLoop n acc rs := by
  induction rs with
  | nil => intro acc h; simp at h
  | cons r rs ih =>
    intro acc h
    rw [scoreLoop_cons]
    by_cases hr : r = 3
    · have := le_scoreLoop n rs (scoreStep n acc r)
      simp [scoreStep, hr] at this ⊢
      exact this
    · have hrs : 3 ∈ rs := by
        rcases List.mem_cons.1 h with e | e
        · exact absurd e.symm hr
        · exact e
      exact ih _ hrs

/-- Sum of the values sent by hosts without hard error: the number of soft
failures. -/
theorem sum_send_of_no_hard (outs : List RunOutcome) :
    RunOutcome.hardError ∉ outs →
      (outs.map send).sum = outs.count RunOutcome.softFailure := by
  induction outs with
  | nil => intro _; rfl
  | cons o os ih =>
    intro h
    have ho : o ≠ RunOutcome.hardError := fun e => h (by simp [e])
    have hos : RunOutcome.hardError ∉ os := fun e => h (by simp [e])
    cases o with
    | hardError => exact absurd rfl ho
    | softFailure => simp [send, ih hos, List.count_cons, Nat.add_comm]
    | success => simp [send, ih hos, List.count_cons]

theorem three_mem_map_send (outs : List RunOutcome) :
    3 ∈ outs.map send ↔ RunOutcome.hardError ∈ outs := by
  constructor
  · intro h
    rcases List.mem_map.1 h with ⟨o, ho, e⟩
    cases o <;> simp_all [send]
  · intro h
    exact List.mem_map.2 ⟨_, h, rfl⟩

/-- The threshold test of lines 73-75 on natural numbers. -/
theorem newState_eq_one_iff (n sc : Nat) : newState n sc = 1 ↔ sc > n / 2 := by
  unfold newState
  split <;> simp_all

theorem newState_eq_zero_iff (n sc : Nat) : newState n sc = 0 ↔ ¬ sc > n / 2 := by
  unfold newState
  split <;> simp_all

/-- After a `3` the earlier values are forgotten: the loop continues from `n`. -/
theorem scoreLoop_append_three (n acc : Nat) (pre post : List Nat) :
    scoreLoop n acc (pre ++ 3 :: post) = scoreLoop n n post := by
  rw [scoreLoop_append, scoreLoop_cons]
  simp [scoreStep]

/-- Score of a tick in which the last hard error is followed by `post`. -/
theorem score_after_last_hard (n : Nat) (pre post : List RunOutcome)
    (hpost : RunOutcome.hardError ∉ post) :
    score n ((pre ++ RunOutcome.hardError :: post).map send)
      = n + post.count RunOutcome.softFailure := by
  have h3 : 3 ∉ post.map send := fun h => hpost ((three_mem_map_send post).1 h)
  simp only [score, List.map_append, List.map_cons, send]
  rw [scoreLoop_append_three, scoreLoop_of_no_three n _ n h3, sum_send_of_no_hard post hpost]

/-- The loop never exceeds the starting value plus the sum of the contributions. -/
theorem scoreLoop_le_contributions (n : Nat) (outs : List RunOutcome) :
    ∀ acc, scoreLoop n acc (outs.map send) ≤ acc + (outs.map (contribution n)).sum := by
  induction outs with
  | nil => intro acc; simp [scoreLoop]
  | cons o os ih =>
    intro acc
    rw [List.map_cons, scoreLoop_cons]
    refine Nat.le_trans (ih _) ?_
    cases o <;> simp [send, contribution, scoreStep]
    omega

/-- The loop never exceeds the larger of the starting value and `n`, plus one
per value read. -/
theorem scoreLoop_le_length (n : Nat) (outs : List RunOutcome) :
    ∀ acc, scoreLoop n acc (outs.map send) ≤ max acc n + outs.length := by
  induction outs with
  | nil => intro acc; simp [scoreLoop]
  | cons o os ih =>
    intro acc
    rw [List.map_cons, scoreLoop_cons]
    refine Nat.le_trans (ih _) ?_
    cases o <;> simp [send, scoreStep] <;> omega

/-- With one result per host the score is at most twice the host count, so the
arithmetic of a tick stays far inside the range of Go's `int`. -/
theorem score_le_two_mul (outs : List RunOutcome) :
    score outs.length (outs.map send) ≤ 2 * outs.length := by
  have h := scoreLoop_le_length outs.length outs 0
  simp only [score]
  omega

/-- Reading a permutation of the sent values keeps the set of values. -/
theorem three_mem_of_perm {results : List Nat} {outs : List RunOutcome}
    (hperm : results.Perm (outs.map send)) :
    3 ∈ results ↔ RunOutcome.hardError ∈ outs := by
  rw [hperm.mem_iff, three_mem_map_send]

/-- Without hard error the contributions are the values sent. -/
theorem contributions_of_no_hard (n : Nat) (outs : List RunOutcome) :
    RunOutcome.hardError ∉ outs →
      (outs.map (contribution n)).sum = (outs.map send).sum := by
  induction outs with
  | nil => intro _; rfl
  | cons o os ih =>
    intro h
    have ho : o ≠ RunOutcome.hardError := fun e => h (by simp [e])
    have hos : RunOutcome.hardError ∉ os := fun e => h (by simp [e])
    cases o with
    | hardError => exact absurd rfl ho
    | softFailure => simp [send, contribution, ih hos]
    | success => simp [send, contribution, ih hos]

/-! ## The claims on score and classification -/

/-- C1: in a tick over `N` hosts without hard error in which exactly `k` hosts
report a soft failure, whatever the order in which the results are read, the
score is `k`, and the new state is Unhealthy (1) exactly when `k > N / 2`
(integer division) and Healthy (0) otherwise. -/
theorem C1_soft_failures_only (N k : Nat) (outs : List RunOutcome) (results : List Nat)
    (hlen : outs.length = N) (hno : RunOutcome.hardError ∉ outs)
    (hk : outs.count RunOutcome.softFailure = k)
    (hperm : results.Perm (outs.map send)) :
    k ≤ N ∧ score N results = k ∧
      (tickState N results = 1 ↔ k > N / 2) ∧
      (tickState N results = 0 ↔ ¬ k > N / 2) := by
  have hkN : k ≤ N := by
    rw [← hk, ← hlen]
    exact List.count_le_length _ _
  have h3 : 3 ∉ results := fun h => hno ((three_mem_of_perm hperm).1 h)
  have hs : score N results = k := by
    simp only [score]
    rw [scoreLoop_of_no_three N results 0 h3, hperm.sum_eq, sum_send_of_no_hard outs hno, hk]
    simp
  refine ⟨hkN, hs, ?_, ?_⟩
  · simp only [tickState, hs]; exact newState_eq_one_iff N k
  · simp only [tickState, hs]; exact newState_eq_zero_iff N k

/-- C2: in a tick over `N` hosts in which at least one host returns a hard
execution error, the new state is Unhealthy (1), whatever the other results
are and in whatever order the results are read. -/
theorem C2_hard_error_unhealthy (N : Nat) (outs : List RunOutcome) (results : List Nat)
    (hlen : outs.length = N) (hhard : RunOutcome.hardError ∈ outs)
    (hperm : results.Perm (outs.map send)) :
    1 ≤ N ∧ tickState N results = 1 := by
  have hpos : 1 ≤ N := by
    rw [← hlen]
    exact List.length_pos_of_mem hhard
  have h3 : 3 ∈ results := (three_mem_of_perm hperm).2 hhard
  have hge : N ≤ score N results := le_scoreLoop_of_three N results 0 h3
  refine ⟨hpos, ?_⟩
  simp only [tickState]
  rw [newState_eq_one_iff]
  omega

/-- C9: the threshold test declares the probe Unhealthy exactly when more than
half of the hosts count as down: for every score and host count `N`, the new
state is 1 iff `score > N / 2` iff `2 * score > N`, for even and odd `N`. -/
theorem C9_threshold_is_majority (N sc : Nat) :
    (newState N sc = 1 ↔ sc > N / 2) ∧ (sc > N / 2 ↔ 2 * sc > N) ∧
      (newState N sc = 0 ↔ 2 * sc ≤ N) := by
  refine ⟨newState_eq_one_iff N sc, ?_, ?_⟩
  · omega
  · rw [newState_eq_zero_iff]; omega

/-- C10: for a list of `N` results (with values in 0, 1, 3, and indeed with any
values), every order in which they are read gives the same new state; the
score itself does depend on the order (reading 3 then 1 over two hosts gives
3, reading 1 then 3 gives 2). -/
theorem C10_state_order_independent (N : Nat) (rs rs' : List Nat)
    (hlen : rs.length = N) (hperm : rs.Perm rs') :
    tickState N rs = tickState N rs' ∧ score 2 [3, 1] ≠ score 2 [1, 3] := by
  refine ⟨?_, by decide⟩
  by_cases h3 : 3 ∈ rs
  · have h3' : 3 ∈ rs' := hperm.mem_iff.1 h3
    have hpos : 1 ≤ N := by rw [← hlen]; exact List.length_pos_of_mem h3
    have h1 : N ≤ score N rs := le_scoreLoop_of_three N rs 0 h3
    have h2 : N ≤ score N rs' := le_scoreLoop_of_three N rs' 0 h3'
    have e1 : tickState N rs = 1 := by
      simp only [tickState]; rw [newState_eq_one_iff]; omega
    have e2 : tickState N rs' = 1 := by
      simp only [tickState]; rw [newState_eq_one_iff]; omega
    rw [e1, e2]
  · have h3' : 3 ∉ rs' := fun h => h3 (hperm.mem_iff.2 h)
    simp only [tickState, score]
    rw [scoreLoop_of_no_three N rs 0 h3, scoreLoop_of_no_three N rs' 0 h3', hperm.sum_eq]

/-- Four hosts: three soft failures give score 3 and the state Unhealthy, two give
score 2 and the state Healthy. -/
theorem C1_witness :
    (score 4 [1, 0, 1, 1] = 3 ∧ tickState 4 [1, 0, 1, 1] = 1) ∧
      (score 4 [0, 1, 1, 0] = 2 ∧ tickState 4 [0, 1, 1, 0] = 0) :=
  have h3 := C1_soft_failures_only 4 3
    [RunOutcome.softFailure, RunOutcome.softFailure, RunOutcome.softFailure, RunOutcome.success]
    [1, 0, 1, 1] rfl (by decide) (by decide) (by decide)
  have h2 := C1_soft_failures_only 4 2
    [RunOutcome.softFailure, RunOutcome.success, RunOutcome.softFailure, RunOutcome.success]
    [0, 1, 1, 0] rfl (by decide) (by decide) (by decide)
  ⟨⟨h3.2.1, h3.2.2.1.2 (by decide)⟩, ⟨h2.2.1, h2.2.2.2.2 (by decide)⟩⟩

/-- Three hosts, one hard error read first: the state is Unhealthy. -/
theorem C2_witness :
    RunOutcome.hardError ∈ [RunOutcome.success, RunOutcome.hardError, RunOutcome.success] ∧
      List.Perm [3, 0, 0] ([RunOutcome.success, RunOutcome.hardError, RunOutcome.success].map send) ∧
      tickState 3 [3, 0, 0] = 1 :=
  ⟨by decide, by decide,
    (C2_hard_error_unhealthy 3
      [RunOutcome.success, RunOutcome.hardError, RunOutcome.success] [3, 0, 0]
      rfl (by decide) (by decide)).2⟩

/-- Two orders of the same three results give the same state. -/
theorem C10_witness :
    List.Perm [1, 3, 0] [3, 0, 1] ∧ tickState 3 [1, 3, 0] = tickState 3 [3, 0, 1] :=
  ⟨by decide, (C10_state_order_independent 3 [1, 3, 0] [3, 0, 1] rfl (by decide)).1⟩

/-- C6, as stated, fails: over two hosts, a soft failure read before a hard
error gives the score 2, while the contributions 1 and 2 add up to 3. -/
theorem C6_counterexample :
    score 2 ([RunOutcome.softFailure, RunOutcome.hardError].map send) = 2 ∧
      ([RunOutcome.softFailure, RunOutcome.hardError].map (contribution 2)).sum = 3 ∧
      score 2 ([RunOutcome.softFailure, RunOutcome.hardError].map send)
        ≠ ([RunOutcome.softFailure, RunOutcome.hardError].map (contribution 2)).sum := by
  decide

/-- C6 (amended): the score of a tick over `N` hosts is built in the order in
which the results are read, a hard error setting it to `N`, a soft failure
adding 1 and a success adding 0.  It is the sum of the per-host contributions
when no host returns a hard error; when some host does, it is `N` plus the
number of soft failures read after the last hard error, hence at least `N`;
in every case it is at most the sum of the contributions. -/
theorem C6_score_in_channel_order (N : Nat) (arrivals : List RunOutcome) :
    (RunOutcome.hardError ∉ arrivals →
        score N (arrivals.map send) = (arrivals.map (contribution N)).sum) ∧
      (∀ pre post, arrivals = pre ++ RunOutcome.hardError :: post →
        RunOutcome.hardError ∉ post →
        score N (arrivals.map send) = N + post.count RunOutcome.softFailure) ∧
      (RunOutcome.hardError ∈ arrivals → N ≤ score N (arrivals.map send)) ∧
      score N (arrivals.map send) ≤ (arrivals.map (contribution N)).sum := by
  refine ⟨?_, ?_, ?_, ?_⟩
  · intro hno
    have h3 : 3 ∉ arrivals.map send := fun h => hno ((three_mem_map_send arrivals).1 h)
    simp only [score]
    rw [scoreLoop_of_no_three N _ 0 h3, contributions_of_no_hard N arrivals hno]
    simp
  · intro pre post harr hpost
    rw [harr]
    exact score_after_last_hard N pre post hpost
  · intro hhard
    exact le_scoreLoop_of_three N _ 0 ((three_mem_map_send arrivals).2 hhard)
  · have h := scoreLoop_le_contributions N arrivals 0
    simpa [score] using h

/-- Three hosts: no hard error, one hard error followed by a soft failure, and two
hard errors. -/
theorem C6_witness :
    score 3 ([RunOutcome.softFailure, RunOutcome.success, RunOutcome.softFailure].map send) = 2 ∧
      score 3 ([RunOutcome.softFailure, RunOutcome.hardError, RunOutcome.softFailure].map send)
        = 3 + 1 ∧
      3 ≤ score 3 ([RunOutcome.hardError, RunOutcome.hardError, RunOutcome.success].map send) :=
  ⟨(C6_score_in_channel_order 3
      [RunOutcome.softFailure, RunOutcome.success, RunOutcome.softFailure]).1 (by decide),
    (C6_score_in_channel_order 3
      [RunOutcome.softFailure, RunOutcome.hardError, RunOutcome.softFailure]).2.1
      [RunOutcome.softFailure] [RunOutcome.softFailure] rfl (by decide),
    (C6_score_in_channel_order 3
      [RunOutcome.hardError, RunOutcome.hardError, RunOutcome.success]).2.2.1 (by decide)⟩

/-- C7, as stated, fails: over two hosts, a hard error read before a soft
failure gives the score 3, not 2. -/
theorem C7_counterexample :
    ([RunOutcome.hardError, RunOutcome.softFailure].count RunOutcome.hardError = 1) ∧
      score 2 ([RunOutcome.hardError, RunOutcome.softFailure].map send) = 3 ∧
      score 2 ([RunOutcome.hardError, RunOutcome.softFailure].map send) ≠ 2 := by
  decide

/-- C7 (amended): in a tick over `N` hosts in which exactly one host returns a
hard execution error, the score is `N` plus the number of soft failures read
after the hard error; it lies between `N` and `2 * N - 1`, and it is exactly
`N` if and only if no soft failure is read after the hard error. -/
theorem C7_single_hard_error_score (N : Nat) (pre post : List RunOutcome)
    (hlen : (pre ++ RunOutcome.hardError :: post).length = N)
    (hpre : RunOutcome.hardError ∉ pre) (hpost : RunOutcome.hardError ∉ post) :
    (pre ++ RunOutcome.hardError :: post).count RunOutcome.hardError = 1 ∧
      score N ((pre ++ RunOutcome.hardError :: post).map send)
        = N + post.count RunOutcome.softFailure ∧
      N ≤ score N ((pre ++ RunOutcome.hardError :: post).map send) ∧
      score N ((pre ++ RunOutcome.hardError :: post).map send) ≤ 2 * N - 1 ∧
      (score N ((pre ++ RunOutcome.hardError :: post).map send) = N
        ↔ RunOutcome.softFailure ∉ post) := by
  have hs := score_after_last_hard N pre post hpost
  have hc : post.count RunOutcome.softFailure ≤ post.length := List.count_le_length _ _
  have hl : post.length + 1 ≤ N := by
    rw [← hlen]
    simp only [List.length_append, List.length_cons]
    omega
  refine ⟨?_, hs, ?_, ?_, ?_⟩
  · rw [List.count_append, List.count_cons_self, List.count_eq_zero_of_not_mem hpre,
      List.count_eq_zero_of_not_mem hpost]
  · omega
  · omega
  · rw [hs]
    constructor
    · intro h
      have h0 : post.count RunOutcome.softFailure = 0 := by omega
      exact List.count_eq_zero.1 h0
    · intro h
      rw [List.count_eq_zero_of_not_mem h]
      rfl

/-- Three hosts with one hard error, read in the middle and read last. -/
theorem C7_witness :
    score 3 ([RunOutcome.softFailure, RunOutcome.hardError, RunOutcome.softFailure].map send) = 4 ∧
      score 3 ([RunOutcome.softFailure, RunOutcome.softFailure, RunOutcome.hardError].map send)
        = 3 :=
  ⟨(C7_single_hard_error_score 3 [RunOutcome.softFailure] [RunOutcome.softFailure]
      rfl (by decide) (by decide)).2.1,
    (C7_single_hard_error_score 3 [RunOutcome.softFailure, RunOutcome.softFailure] []
      rfl (by decide) (by decide)).2.2.2.2.2 (by decide)⟩

/-! ## Lemmas on the transition step -/

theorem tickState_zero_or_one (n : Nat) (results : List Nat) :
    tickState n results = 0 ∨ tickState n results = 1 := by
  unfold tickState newState
  split
  · exact Or.inr rfl
  · exact Or.inl rfl

theorem count_stop_stopAll (id : Int) (checks : List (Int × CheckInstance)) :
    (stopAll checks).count (Effect.stop id) = (checks.map Prod.fst).count id := by
  induction checks with
  | nil => rfl
  | cons c cs ih =>
    simp only [stopAll, List.map_cons, List.count_cons] at ih ⊢
    rw [ih]
    by_cases h : c.1 = id <;> simp [h]

theorem count_run_runAll (id : Int) (checks : List (Int × CheckInstance)) :
    (runAll checks).count (Effect.run id) = (checks.map Prod.fst).count id := by
  induction checks with
  | nil => rfl
  | cons c cs ih =>
    simp only [runAll, List.map_cons, List.count_cons] at ih ⊢
    rw [ih]
    by_cases h : c.1 = id <;> simp [h]

theorem count_run_stopAll (id : Int) (checks : List (Int × CheckInstance)) :
    (stopAll checks).count (Effect.run id) = 0 := by
  apply List.count_eq_zero_of_not_mem
  intro h
  rcases List.mem_map.1 h with ⟨c, _, e⟩
  cases e

theorem count_stop_runAll (id : Int) (checks : List (Int × CheckInstance)) :
    (runAll checks).count (Effect.stop id) = 0 := by
  apply List.count_eq_zero_of_not_mem
  intro h
  rcases List.mem_map.1 h with ⟨c, _, e⟩
  cases e

/-- A tick whose new state is 1 and differs from the last one. -/
theorem transition_to_unhealthy (st : HealthState) (ns : Nat)
    (hne : ns ≠ st.lastState) (h1 : ns = 1) :
    transition st ns =
      ({ s := { st.s with Healthy := false }, schedulerHealth := 0, lastState := ns },
        [Effect.gaugeSet 0, Effect.lock, Effect.setHealthy false]
          ++ stopAll st.s.Checks ++ [Effect.unlock]) := by
  subst h1
  simp [transition, hne]

/-- A tick whose new state is not 1 and differs from the last one. -/
theorem transition_to_healthy (st : HealthState) (ns : Nat)
    (hne : ns ≠ st.lastState) (h1 : ns ≠ 1) :
    transition st ns =
      ({ s := { st.s with Healthy := true }, schedulerHealth := 1, lastState := ns },
        [Effect.gaugeSet 1, Effect.lock, Effect.setHealthy true]
          ++ runAll st.s.Checks ++ [Effect.unlock]) := by
  simp [transition, hne, h1]

/-- A tick whose new state is the last one. -/
theorem transition_same (st : HealthState) (ns : Nat) (heq : ns = st.lastState) :
    transition st ns = (st, []) := by
  simp [transition, heq]

/-- After a tick the recorded state is the new state of that tick. -/
theorem tick_lastState (n : Nat) (st : HealthState) (results : List Nat) :
    (tick n st results).1.lastState = tickState n results := by
  unfold tick transition
  split
  · split <;> rfl
  · rename_i h
    simp only [ne_eq, Decidable.not_not] at h
    exact h.symm

theorem runTicks_nil (n : Nat) (acc : HealthState × List Effect) :
    runTicks n acc [] = acc := rfl

theorem runTicks_cons (n : Nat) (acc : HealthState × List Effect) (r : List Nat)
    (ticks : List (List Nat)) :
    runTicks n acc (r :: ticks) = runTicks n (runStep n acc r) ticks := rfl

theorem runTicks_append (n : Nat) (acc : HealthState × List Effect)
    (xs ys : List (List Nat)) :
    runTicks n acc (xs ++ ys) = runTicks n (runTicks n acc xs) ys := by
  simp [runTicks, List.foldl_append]

/-- Ticks that all give the recorded state change nothing. -/
theorem runTicks_stable (n : Nat) (ticks : List (List Nat)) :
    ∀ (st : HealthState) (tr : List Effect),
      (∀ r ∈ ticks, tickState n r = st.lastState) → runTicks n (st, tr) ticks = (st, tr) := by
  induction ticks with
  | nil => intro st tr _; rfl
  | cons r rs ih =>
    intro st tr h
    have hr : tickState n r = st.lastState := h r (by simp)
    have hstep : runStep n (st, tr) r = (st, tr) := by
      simp [runStep, tick, transition_same st _ hr]
    rw [runTicks_cons, hstep]
    exact ih st tr (fun x hx => h x (by simp [hx]))

/-! ## The claims on transitions, hysteresis and start -/

/-- C3: on a tick whose new state differs from the last recorded state, every
instance of the `Checks` map receives exactly one call, `Stop` when the new
state is Unhealthy (1) and `Run` when it is Healthy (0), and no call of the
other kind; nothing outside the map is called; the `Healthy` flag becomes
false resp. true, the gauge 0 resp. 1, the recorded state becomes the new
state, and the `Checks` map (so its key set) is unchanged. -/
theorem C3_transition_broadcast (n : Nat) (st : HealthState) (results : List Nat)
    (hne : tickState n results ≠ st.lastState) (hkeys : st.s.keys.Nodup) :
    (tickState n results = 1 →
        (∀ id ∈ st.s.keys,
          (tick n st results).2.count (Effect.stop id) = 1 ∧
          (tick n st results).2.count (Effect.run id) = 0) ∧
        (tick n st results).1.s.Healthy = false ∧
        (tick n st results).1.schedulerHealth = 0) ∧
      (tickState n results = 0 →
        (∀ id ∈ st.s.keys,
          (tick n st results).2.count (Effect.run id) = 1 ∧
          (tick n st results).2.count (Effect.stop id) = 0) ∧
        (tick n st results).1.s.Healthy = true ∧
        (tick n st results).1.schedulerHealth = 1) ∧
      (∀ id, id ∉ st.s.keys →
        (tick n st results).2.count (Effect.stop id) = 0 ∧
        (tick n st results).2.count (Effect.run id) = 0) ∧
      (tick n st results).1.lastState = tickState n results ∧
      (tick n st results).1.s.Checks = st.s.Checks ∧
      (tick n st results).1.s.keys = st.s.keys := by
  rcases tickState_zero_or_one n results with h0 | h1
  · have h1 : tickState n results ≠ 1 := by omega
    have ht := transition_to_healthy st _ hne h1
    refine ⟨fun h => absurd h h1, fun _ => ⟨?_, ?_, ?_⟩, ?_, ?_, ?_, ?_⟩
    · intro id hid
      have hc : (st.s.Checks.map Prod.fst).count id = 1 := List.count_eq_one_of_mem hkeys hid
      simp only [tick, ht]
      simp [List.count_append, List.count_cons, count_run_runAll, count_stop_runAll, hc]
    · simp only [tick, ht]
    · simp only [tick, ht]
    · intro id hid
      have hc : (st.s.Checks.map Prod.fst).count id = 0 := List.count_eq_zero_of_not_mem hid
      simp only [tick, ht]
      simp [List.count_append, List.count_cons, count_run_runAll, count_stop_runAll, hc]
    · simp only [tick, ht]
    · simp only [tick, ht]
    · simp only [tick, ht, Scheduler.keys]
  · have ht := transition_to_unhealthy st _ hne h1
    have h0 : tickState n results ≠ 0 := by omega
    refine ⟨fun _ => ⟨?_, ?_, ?_⟩, fun h => absurd h h0, ?_, ?_, ?_, ?_⟩
    · intro id hid
      have hc : (st.s.Checks.map Prod.fst).count id = 1 := List.count_eq_one_of_mem hkeys hid
      simp only [tick, ht]
      simp [List.count_append, List.count_cons, count_stop_stopAll, count_run_stopAll, hc]
    · simp only [tick, ht]
    · simp only [tick, ht]
    · intro id hid
      have hc : (st.s.Checks.map Prod.fst).count id = 0 := List.count_eq_zero_of_not_mem hid
      simp only [tick, ht]
      simp [List.count_append, List.count_cons, count_stop_stopAll, count_run_stopAll, hc]
    · simp only [tick, ht]
    · simp only [tick, ht]
    · simp only [tick, ht, Scheduler.keys]

/-- The sample scheduler on a tick that turns Unhealthy and on one that turns
Healthy. -/
theorem C3_witness :
    tickState 2 [3, 0] ≠ 0 ∧ tickState 2 [0, 0] ≠ 1 ∧
      ((tick 2 { s := sampleScheduler, schedulerHealth := 1, lastState := 0 } [3, 0]).2.count
          (Effect.stop 7) = 1 ∧
        (tick 2 { s := sampleScheduler, schedulerHealth := 1, lastState := 0 } [3, 0]).2.count
          (Effect.run 7) = 0) ∧
      ((tick 2 { s := sampleScheduler, schedulerHealth := 0, lastState := 1 } [0, 0]).2.count
          (Effect.run 9) = 1 ∧
        (tick 2 { s := sampleScheduler, schedulerHealth := 0, lastState := 1 } [0, 0]).2.count
          (Effect.stop 9) = 0) :=
  ⟨by decide, by decide,
    ((C3_transition_broadcast 2 { s := sampleScheduler, schedulerHealth := 1, lastState := 0 }
      [3, 0] (by decide) (by decide)).1 (by decide)).1 7 (by decide),
    ((C3_transition_broadcast 2 { s := sampleScheduler, schedulerHealth := 0, lastState := 1 }
      [0, 0] (by decide) (by decide)).2.1 (by decide)).1 9 (by decide)⟩

/-- C4: hysteresis.  A tick whose new state equals the last recorded state
takes no action: it has no effect (no `Stop`, no `Run`, no write of the flag or
of the gauge) and leaves the whole state, with the `Checks` map and the
recorded state, as it was.  Hence a run of consecutive ticks that all have the
same classification has, from any state, exactly the effects and the final
state of its first tick alone. -/
theorem C4_hysteresis (n : Nat) (st st0 : HealthState) (tr : List Effect)
    (results : List Nat) (ticks : List (List Nat))
    (heq : tickState n results = st.lastState)
    (hsame : ∀ r ∈ ticks, tickState n r = tickState n results) :
    tick n st results = (st, []) ∧
      runTicks n (st, tr) (results :: ticks) = (st, tr) ∧
      runTicks n (st0, tr) (results :: ticks) = runStep n (st0, tr) results := by
  refine ⟨transition_same st _ heq, ?_, ?_⟩
  · apply runTicks_stable
    intro r hr
    rcases List.mem_cons.1 hr with e | e
    · rw [e]; exact heq
    · rw [hsame r e]; exact heq
  · rw [runTicks_cons]
    apply runTicks_stable
    intro r hr
    rw [hsame r hr]
    exact (tick_lastState n st0 results).symm

/-- The sample scheduler on a tick that repeats the recorded state, and on three
consecutive Unhealthy ticks. -/
theorem C4_witness :
    tickState 2 [1, 0] = 0 ∧
      tick 2 { s := sampleScheduler, schedulerHealth := 1, lastState := 0 } [1, 0]
        = ({ s := sampleScheduler, schedulerHealth := 1, lastState := 0 }, []) ∧
      runTicks 2 ({ s := sampleScheduler, schedulerHealth := 1, lastState := 0 }, [])
          [[3, 1], [1, 1], [0, 3]]
        = runStep 2 ({ s := sampleScheduler, schedulerHealth := 1, lastState := 0 }, [])
          [3, 1] :=
  ⟨by decide,
    (C4_hysteresis 2 { s := sampleScheduler, schedulerHealth := 1, lastState := 0 }
      { s := sampleScheduler, schedulerHealth := 1, lastState := 0 } [] [1, 0] []
      (by decide) (by simp)).1,
    (C4_hysteresis 2 { s := sampleScheduler, schedulerHealth := 0, lastState := 1 }
      { s := sampleScheduler, schedulerHealth := 1, lastState := 0 } [] [3, 1]
      [[1, 1], [0, 3]] (by decide) (by decide)).2.2⟩

/-- C5: fail-safe start.  `CheckHealth` begins with the recorded state
Unhealthy (1) and the gauge 0.  As long as every tick so far is classified
Unhealthy, the only effect is the initial `schedulerHealth.Set(0)`: no `Stop`,
no `Run`, no write of the `Healthy` flag, no gauge 1, and the scheduler is
untouched; in particular so for a first tick classified Unhealthy.  The first
tick classified Healthy sets the gauge to 1 and the flag to true and calls
`Run` on every owned instance. -/
theorem C5_fail_safe_start (s : Scheduler) (pre : List (List Nat)) (first rs : List Nat)
    (hpre : ∀ r ∈ pre, tickState s.HealthHosts.length r = 1)
    (hfirst : tickState s.HealthHosts.length first = 1)
    (hrs : tickState s.HealthHosts.length rs = 0) :
    start s = ({ s := s, schedulerHealth := 0, lastState := 1 }, [Effect.gaugeSet 0]) ∧
      CheckHealth s pre
        = ({ s := s, schedulerHealth := 0, lastState := 1 }, [Effect.gaugeSet 0]) ∧
      CheckHealth s [first]
        = ({ s := s, schedulerHealth := 0, lastState := 1 }, [Effect.gaugeSet 0]) ∧
      (CheckHealth s (pre ++ [rs])).1
        = { s := { s with Healthy := true }, schedulerHealth := 1, lastState := 0 } ∧
      (CheckHealth s (pre ++ [rs])).2
        = [Effect.gaugeSet 0, Effect.gaugeSet 1, Effect.lock, Effect.setHealthy true]
            ++ runAll s.Checks ++ [Effect.unlock] ∧
      (∀ id ∈ s.keys, Effect.run id ∈ (CheckHealth s (pre ++ [rs])).2) ∧
      (∀ id, Effect.stop id ∉ (CheckHealth s (pre ++ [rs])).2) := by
  have hstable : ∀ ticks : List (List Nat),
      (∀ r ∈ ticks, tickState s.HealthHosts.length r = 1) →
        CheckHealth s ticks
          = ({ s := s, schedulerHealth := 0, lastState := 1 }, [Effect.gaugeSet 0]) := by
    intro ticks h
    exact runTicks_stable s.HealthHosts.length ticks _ _ h
  have hA := hstable pre hpre
  have hB := hstable [first] (by
    intro r hr
    rw [List.mem_singleton.1 hr]
    exact hfirst)
  have ht : transition { s := s, schedulerHealth := 0, lastState := 1 } 0
      = ({ s := { s with Healthy := true }, schedulerHealth := 1, lastState := 0 },
          [Effect.gaugeSet 1, Effect.lock, Effect.setHealthy true]
            ++ runAll s.Checks ++ [Effect.unlock]) :=
    transition_to_healthy { s := s, schedulerHealth := 0, lastState := 1 } 0
      (by simp) (by simp)
  have hC : CheckHealth s (pre ++ [rs])
      = ({ s := { s with Healthy := true }, schedulerHealth := 1, lastState := 0 },
          [Effect.gaugeSet 0, Effect.gaugeSet 1, Effect.lock, Effect.setHealthy true]
            ++ runAll s.Checks ++ [Effect.unlock]) := by
    have hA' : runTicks s.HealthHosts.length (start s) pre
        = ({ s := s, schedulerHealth := 0, lastState := 1 }, [Effect.gaugeSet 0]) := hA
    unfold CheckHealth
    rw [runTicks_append, hA', runTicks_cons, runTicks_nil]
    simp only [runStep, tick, hrs, ht]
    simp
  refine ⟨rfl, hA, hB, ?_, ?_, ?_, ?_⟩
  · rw [hC]
  · rw [hC]
  · intro id hid
    rw [hC]
    rcases List.mem_map.1 hid with ⟨c, hc, e⟩
    have hmem : Effect.run id ∈ runAll s.Checks := List.mem_map.2 ⟨c, hc, by rw [e]⟩
    simp [hmem]
  · intro id
    rw [hC]
    have hnot : Effect.stop id ∉ runAll s.Checks := by
      intro h
      rcases List.mem_map.1 h with ⟨c, _, e⟩
      cases e
    simp [hnot]

/-- The sample scheduler over two Unhealthy ticks followed by a Healthy one. -/
theorem C5_witness :
    (CheckHealth sampleScheduler [[3, 0], [1, 1]]).2 = [Effect.gaugeSet 0] ∧
      (CheckHealth sampleScheduler ([[3, 0], [1, 1]] ++ [[0, 1]])).2
        = [Effect.gaugeSet 0, Effect.gaugeSet 1, Effect.lock, Effect.setHealthy true,
            Effect.run 7, Effect.run 9, Effect.unlock] :=
  have h := C5_fail_safe_start sampleScheduler [[3, 0], [1, 1]] [1, 1] [0, 1]
    (by decide) (by decide) (by decide)
  ⟨congrArg Prod.snd h.2.1, h.2.2.2.2.1⟩

/-! ## The claim on the healthz endpoint -/

/-- C8: the readiness handler reflects `IsHealthy()`: a request to `/ready`
is answered with status 200 and body "OK" if and only if `IsHealthy()` is
true, and with status 503 and body "Not Ready" otherwise; a request to
`/alive` is answered with status 200 and body "OK" whatever the flag is. -/
theorem C8_healthz_handlers (s : Scheduler) :
    (healthzServe s "/ready" = some { status := some 200, body := "OK" }
        ↔ IsHealthy s = true) ∧
      (healthzServe s "/ready" = some { status := some 503, body := "Not Ready" }
        ↔ IsHealthy s = false) ∧
      healthzServe s "/alive" = some { status := some 200, body := "OK" } := by
  cases h : s.Healthy <;>
    simp [healthzServe, readyHandler, aliveHandler, IsHealthy, h, Write, WriteHeader,
      ResponseWriter.fresh, StatusOK, StatusServiceUnavailable]

end RaintankProbe
